import Mathlib

/-!
Shallow embedding of the authentication / transport gateway of the
Headlesshost MCP server (`src/index.ts`).  The embedding covers:

* JavaScript JSON values (`Json`), truthiness (`jsTruthy`) and the
  `String(...)` conversion (`jsToString`) as used by the source;
* the JWT claims decoder `parseJwtClaims` (token split, Node's forgiving
  base64url decoding, lossy UTF-8 decoding, `JSON.parse`);
* the verification cache (`tokenVerifyCache`, a `Map` modelled as an
  association list with overwrite-on-set semantics);
* `verifyBearerToken` with the downstream probe modelled as an oracle
  (`ProbeResult`): the axios call uses `validateStatus: () => true`, so a
  reachable downstream always yields a status, while a network failure /
  timeout surfaces as a distinct exception (`upstreamUnavailable`);
* `resolveAccessToken` (the credential resolver);
* `buildOAuthMetadata` with the discovery fetch modelled as a URL-indexed
  oracle, plus the JSON serialisation of the built metadata
  (`JSON.stringify` omits `undefined` fields);
* the `mixed` auth middleware and the auth phase of `startHttpMode`.

Model notes (fixed abstraction choices, commented where relevant):
JSON numbers are modelled as integers (all claims in scope use integral
epoch values; the parser rejects fractional literals), `\uXXXX` escapes
for surrogate code points decode to U+FFFD, and time is `Int`
milliseconds as returned by `Date.now()`.
-/

namespace HeadlesshostMcp

/-- JSON values as produced by `JSON.parse`.  Numbers are modelled as
integers.  Object member lists keep first-occurrence key order, with a
later duplicate key overwriting the earlier value (as `JSON.parse` does). -/
inductive Json where
  | null : Json
  | bool : Bool → Json
  | num : Int → Json
  | str : String → Json
  | arr : List Json → Json
  | obj : List (String × Json) → Json

/-- JavaScript truthiness of a JSON value (`Boolean(v)`). -/
def jsTruthy : Json → Bool
  | .null => false
  | .bool b => b
  | .num n => n != 0
  | .str s => s != ""
  | .arr _ => true
  | .obj _ => true

/-- Truthiness of an optional lookup result (`undefined` is falsy). -/
def jsTruthyOpt : Option Json → Bool
  | some v => jsTruthy v
  | none => false

mutual
/-- JavaScript `String(v)` conversion of a JSON value.  Array conversion
is `Array.prototype.join(",")`, in which a `null` element contributes the
empty string. -/
def jsToString : Json → String
  | .null => "null"
  | .bool true => "true"
  | .bool false => "false"
  | .num n => toString n
  | .str s => s
  | .arr xs => String.intercalate "," (jsArrElemStrings xs)
  | .obj _ => "[object Object]"

/-- Strings the elements of an array contribute to `join(",")`. -/
def jsArrElemStrings : List Json → List String
  | [] => []
  | .null :: xs => "" :: jsArrElemStrings xs
  | x :: xs => jsToString x :: jsArrElemStrings xs
end

/-- Property lookup on an object member list (first match; the parser
already collapses duplicate keys). -/
def lookupKvs : List (String × Json) → String → Option Json
  | [], _ => none
  | (k, v) :: rest, key => if k = key then some v else lookupKvs rest key

/-- JavaScript property access `j.key`: `undefined` (`none`) on any
non-object value. -/
def jLookup (j : Json) (key : String) : Option Json :=
  match j with
  | .obj kvs => lookupKvs kvs key
  | _ => none

/-- Insert/overwrite a key in an object member list, keeping the original
position of an existing key (JavaScript object update semantics). -/
def objSet : List (String × Json) → String → Json → List (String × Json)
  | [], k, v => [(k, v)]
  | (k', v') :: rest, k, v =>
      if k' = k then (k, v) :: rest else (k', v') :: objSet rest k v

/-- JavaScript whitespace (the characters `\s` matches that `String.trim`
also strips, restricted to the ones representable here). -/
def isJsWs (c : Char) : Bool :=
  c == ' ' || c == '\t' || c == '\n' || c == '\r' ||
  c.toNat == 11 || c.toNat == 12 || c.toNat == 0xA0 || c.toNat == 0xFEFF

/-- Model of `String.prototype.trim`. -/
def jsTrim (s : String) : String :=
  String.mk (((s.data.dropWhile isJsWs).reverse.dropWhile isJsWs).reverse)

/-- Model of `String.prototype.split(sep)` for a one-character separator. -/
def splitOnChar (sep : Char) : List Char → List (List Char)
  | [] => [[]]
  | c :: cs =>
    let rest := splitOnChar sep cs
    if c = sep then [] :: rest
    else
      match rest with
      | r :: rs => (c :: r) :: rs
      | [] => [[c]]

/-- Value of one base64 / base64url alphabet character (Node's decoder
accepts both alphabets); `none` for characters outside the alphabet. -/
def b64Sextet (c : Char) : Option Nat :=
  if 'A' ≤ c ∧ c ≤ 'Z' then some (c.toNat - 65)
  else if 'a' ≤ c ∧ c ≤ 'z' then some (c.toNat - 97 + 26)
  else if '0' ≤ c ∧ c ≤ '9' then some (c.toNat - 48 + 52)
  else if c = '-' ∨ c = '+' then some 62
  else if c = '_' ∨ c = '/' then some 63
  else none

/-- Reassemble 6-bit groups into bytes; a trailing group of 3 or 2
sextets yields 2 or 1 bytes, a lone trailing sextet is dropped (Node's
forgiving base64 decoder). -/
def sextetsToBytes : List Nat → List Nat
  | a :: b :: c :: d :: rest =>
      (a * 4 + b / 16) :: ((b % 16) * 16 + c / 4) :: ((c % 4) * 64 + d) ::
        sextetsToBytes rest
  | [a, b, c] => [a * 4 + b / 16, (b % 16) * 16 + c / 4]
  | [a, b] => [a * 4 + b / 16]
  | [_] => []
  | [] => []

/-- Model of `Buffer.from(s, "base64url")`: forgiving decode — characters outside
the alphabet (including `=` padding) are ignored. -/
def b64urlDecode (cs : List Char) : List Nat :=
  sextetsToBytes (cs.filterMap b64Sextet)

/-- Is a byte a UTF-8 continuation byte (`0x80..0xBF`)? -/
def isCont (b : Nat) : Bool := 0x80 ≤ b && b ≤ 0xBF

/-- Fuel-driven lossy UTF-8 decoding, replacing malformed sequences with
U+FFFD; every fuel decrement follows the consumption of at least one
byte, so `length + 1` fuel always suffices. -/
def utf8DecodeLossyF : Nat → List Nat → List Char
  | 0, _ => []
  | _ + 1, [] => []
  | fuel + 1, b :: rest =>
    if b < 0x80 then
      Char.ofNat b :: utf8DecodeLossyF fuel rest
    else if 0xC2 ≤ b ∧ b ≤ 0xDF then
      match rest with
      | b2 :: rest2 =>
          if isCont b2 then
            Char.ofNat ((b - 0xC0) * 64 + (b2 - 0x80)) ::
              utf8DecodeLossyF fuel rest2
          else '�' :: utf8DecodeLossyF fuel rest
      | [] => ['�']
    else if 0xE0 ≤ b ∧ b ≤ 0xEF then
      match rest with
      | b2 :: b3 :: rest3 =>
          if isCont b2 && isCont b3 &&
             !(b == 0xE0 && b2 < 0xA0) && !(b == 0xED && b2 ≥ 0xA0) then
            Char.ofNat ((b - 0xE0) * 4096 + (b2 - 0x80) * 64 + (b3 - 0x80)) ::
              utf8DecodeLossyF fuel rest3
          else '�' :: utf8DecodeLossyF fuel rest
      | _ => '�' :: utf8DecodeLossyF fuel rest
    else if 0xF0 ≤ b ∧ b ≤ 0xF4 then
      match rest with
      | b2 :: b3 :: b4 :: rest4 =>
          if isCont b2 && isCont b3 && isCont b4 &&
             !(b == 0xF0 && b2 < 0x90) && !(b == 0xF4 && b2 ≥ 0x90) then
            Char.ofNat ((b - 0xF0) * 262144 + (b2 - 0x80) * 4096 +
                (b3 - 0x80) * 64 + (b4 - 0x80)) :: utf8DecodeLossyF fuel rest4
          else '�' :: utf8DecodeLossyF fuel rest
      | _ => '�' :: utf8DecodeLossyF fuel rest
    else '�' :: utf8DecodeLossyF fuel rest

/-- Model of `buffer.toString("utf8")`: bytes to string via lossy UTF-8 decoding. -/
def bufToUtf8 (bytes : List Nat) : String :=
  String.mk (utf8DecodeLossyF (bytes.length + 1) bytes)

/-- Hexadecimal digit value. -/
def hexVal (c : Char) : Option Nat :=
  if '0' ≤ c ∧ c ≤ '9' then some (c.toNat - 48)
  else if 'a' ≤ c ∧ c ≤ 'f' then some (c.toNat - 97 + 10)
  else if 'A' ≤ c ∧ c ≤ 'F' then some (c.toNat - 65 + 10)
  else none

/-- Skip JSON whitespace. -/
def skipWs : List Char → List Char
  | [] => []
  | c :: cs =>
      if c == ' ' || c == '\t' || c == '\n' || c == '\r' then skipWs cs
      else c :: cs

/-- Parse a run of decimal digits, returning value, digit count and rest. -/
def parseDigits : List Char → Nat → Nat → Nat × Nat × List Char
  | [], acc, n => (acc, n, [])
  | c :: cs, acc, n =>
      if c.isDigit then parseDigits cs (acc * 10 + (c.toNat - 48)) (n + 1)
      else (acc, n, c :: cs)

/-- Parse a JSON number.  Model restriction: fractional and exponent
forms are rejected (all numbers in scope are integral epoch values). -/
def parseNumber (cs : List Char) : Option (Int × List Char) :=
  let (neg, cs1) := match cs with
    | '-' :: r => (true, r)
    | _ => (false, cs)
  match cs1 with
  | c :: _ =>
      if c.isDigit then
        let (v, n, rest) := parseDigits cs1 0 0
        if n > 1 ∧ c = '0' then none
        else
          match rest with
          | '.' :: _ => none
          | 'e' :: _ => none
          | 'E' :: _ => none
          | _ => some ((if neg then -(v : Int) else (v : Int)), rest)
      else none
  | [] => none

/-- Parse the body of a JSON string after the opening quote (`acc` holds
the accumulated characters in reverse).  A `\uXXXX` escape denoting a
surrogate code point becomes U+FFFD (model choice: Lean characters are
scalar values, JavaScript strings are UTF-16). -/
def parseStringBody (acc : List Char) : List Char → Option (String × List Char)
  | [] => none
  | c :: cs =>
    if c = '"' then some (String.mk acc.reverse, cs)
    else if c = '\\' then
      match cs with
      | [] => none
      | e :: cs2 =>
        if e = '"' then parseStringBody ('"' :: acc) cs2
        else if e = '\\' then parseStringBody ('\\' :: acc) cs2
        else if e = '/' then parseStringBody ('/' :: acc) cs2
        else if e = 'b' then parseStringBody (Char.ofNat 8 :: acc) cs2
        else if e = 'f' then parseStringBody (Char.ofNat 12 :: acc) cs2
        else if e = 'n' then parseStringBody ('\n' :: acc) cs2
        else if e = 'r' then parseStringBody ('\r' :: acc) cs2
        else if e = 't' then parseStringBody ('\t' :: acc) cs2
        else if e = 'u' then
          match cs2 with
          | h1 :: h2 :: h3 :: h4 :: cs3 =>
            match hexVal h1, hexVal h2, hexVal h3, hexVal h4 with
            | some a, some b, some c2, some d =>
                let code := ((a * 16 + b) * 16 + c2) * 16 + d
                let ch := if 0xD800 ≤ code ∧ code ≤ 0xDFFF then '�'
                          else Char.ofNat code
                parseStringBody (ch :: acc) cs3
            | _, _, _, _ => none
          | _ => none
        else none
    else if c.toNat < 0x20 then none
    else parseStringBody (c :: acc) cs

/-- Parser continuations: a value, the members of an object (after `{`),
or the elements of an array (after `[`). -/
inductive ParserCall where
  | value : List Char → ParserCall
  | members : List Char → List (String × Json) → ParserCall
  | elems : List Char → List Json → ParserCall

/-- Fuel-driven JSON parser (one recursive function so that kernel
reduction stays definitional).  Every fuel decrement follows the
consumption of at least one input character, so `length + 1` fuel always
suffices. -/
def parseJ : Nat → ParserCall → Option (Json × List Char)
  | 0, _ => none
  | fuel + 1, .value cs =>
    (match skipWs cs with
     | '{' :: rest =>
        (match skipWs rest with
         | '}' :: rest2 => some (.obj [], rest2)
         | _ => parseJ fuel (.members rest []))
     | '[' :: rest =>
        (match skipWs rest with
         | ']' :: rest2 => some (.arr [], rest2)
         | _ => parseJ fuel (.elems rest []))
     | '"' :: rest =>
        (match parseStringBody [] rest with
         | some (s, r) => some (.str s, r)
         | none => none)
     | 't' :: 'r' :: 'u' :: 'e' :: rest => some (.bool true, rest)
     | 'f' :: 'a' :: 'l' :: 's' :: 'e' :: rest => some (.bool false, rest)
     | 'n' :: 'u' :: 'l' :: 'l' :: rest => some (.null, rest)
     | other =>
        (match parseNumber other with
         | some (n, r) => some (.num n, r)
         | none => none))
  | fuel + 1, .members cs acc =>
    (match skipWs cs with
     | '"' :: rest =>
        (match parseStringBody [] rest with
         | none => none
         | some (k, rest2) =>
            (match skipWs rest2 with
             | ':' :: rest3 =>
                (match parseJ fuel (.value rest3) with
                 | none => none
                 | some (v, rest4) =>
                    (match skipWs rest4 with
                     | ',' :: rest5 => parseJ fuel (.members rest5 (objSet acc k v))
                     | '}' :: rest5 => some (.obj (objSet acc k v), rest5)
                     | _ => none))
             | _ => none))
     | _ => none)
  | fuel + 1, .elems cs acc =>
    (match parseJ fuel (.value cs) with
     | none => none
     | some (v, rest) =>
        (match skipWs rest with
         | ',' :: rest2 => parseJ fuel (.elems rest2 (v :: acc))
         | ']' :: rest2 => some (.arr (v :: acc).reverse, rest2)
         | _ => none))

/-- Model of `JSON.parse`: parse a complete value, allowing trailing whitespace
only. -/
def jsonParse (s : String) : Option Json :=
  match parseJ (s.data.length + 1) (.value s.data) with
  | some (v, rest) => if skipWs rest = [] then some v else none
  | none => none

/-- The dot-separated segment the claims decoder reads: `parts[1]` when
the token has at least two segments (`src/index.ts` lines 97-99). -/
def jwtPayloadSegment (token : String) : Option (List Char) :=
  let parts := splitOnChar '.' token.data
  if parts.length < 2 then none else some (parts.getD 1 [])

/-- Embedding of `parseJwtClaims` (`src/index.ts` lines 96-105): split on `.`, decode
`parts[1]` as base64url, `JSON.parse` the result; any failure is caught
and yields `{}`.  No signature segment is ever inspected and no local
cryptographic check is performed. -/
def parseJwtClaims (token : String) : Json :=
  match jwtPayloadSegment token with
  | none => .obj []
  | some payload =>
    match jsonParse (bufToUtf8 (b64urlDecode payload)) with
    | some j => j
    | none => .obj []

/-- Process-wide configuration, read once from the environment at startup
(`src/index.ts` lines 15-26).  `legacyApiKey` is the trimmed
`HEADLESSHOST_API_KEY` (`none` when unset); an empty trimmed value is
falsy in every check the source performs.  `authMode` is the lowercased
`MCP_AUTH_MODE` string (defaulting to `"none"`). -/
structure Config where
  legacyApiKey : Option String
  allowLegacyFallback : Bool
  authMode : String
  oidcIssuerUrl : Option String
  oidcScopes : List String
  tokenVerifyCacheTtlMs : Int

/-- Per-call context as the Tool Layer sees it: `ctx?.authInfo?.token`
is an arbitrary value (`any`), absent for anonymous/stdio callers. -/
structure CallContext where
  authInfoToken : Option Json

/-- Embedding of `resolveAccessToken` (`src/index.ts` lines 43-54): a non-empty string
token from the call context wins; otherwise the legacy static key applies
exactly when the fallback flag is enabled and a (truthy, i.e. non-empty)
key is configured. -/
def resolveAccessToken (cfg : Config) (ctx : CallContext) : Option String :=
  match ctx.authInfoToken with
  | some (.str t) =>
      if t.length > 0 then some t
      else if cfg.allowLegacyFallback ∧ jsTruthyOpt (cfg.legacyApiKey.map .str) then
        cfg.legacyApiKey
      else none
  | _ =>
      if cfg.allowLegacyFallback ∧ jsTruthyOpt (cfg.legacyApiKey.map .str) then
        cfg.legacyApiKey
      else none

/-- The verified identity attached to a token (`authInfo` in
`verifyBearerToken`). -/
structure AuthInfo where
  clientId : String
  scopes : List String
  expiresAt : Option Int

/-- One entry of `tokenVerifyCache`: the verified identity plus the
cache-expiry instant (`now + TOKEN_VERIFY_CACHE_TTL_MS` at write time). -/
structure CacheEntry where
  expiresAt : Int
  authInfo : AuthInfo

/-- Embedding of `tokenVerifyCache` (`src/index.ts` line 28): a `Map` from raw token
string to cached verification, modelled as an association list. -/
def Cache := List (String × CacheEntry)

/-- Model of `Map.prototype.get`. -/
def cacheGet : Cache → String → Option CacheEntry
  | [], _ => none
  | (k, v) :: rest, key => if k = key then some v else cacheGet rest key

/-- Model of `Map.prototype.set`: overwrite an existing key in place, append a
fresh key. -/
def cacheSet : Cache → String → CacheEntry → Cache
  | [], k, v => [(k, v)]
  | (k', v') :: rest, k, v =>
      if k' = k then (k, v) :: rest else (k', v') :: cacheSet rest k v

/-- Outcome of the downstream probe `GET /tools/ping`: the axios request
uses `validateStatus: () => true`, so any reachable downstream yields a
`response` (status plus parsed body); a network failure or 15-second
timeout makes axios throw, modelled as `unreachable`. -/
inductive ProbeResult where
  | response (status : Nat) (body : Json)
  | unreachable

/-- The probe request's timeout in milliseconds (`timeout: 15000` in the
axios call of `verifyBearerToken`). -/
def PROBE_TIMEOUT_MS : Nat := 15000

/-- The two failure kinds of `verifyBearerToken`, distinguishable to the
caller: a non-200 probe response makes the function itself `throw new
Error(...)` (`invalidToken`, carrying the constructed message), while an
unreachable downstream lets the axios exception propagate
(`upstreamUnavailable`). -/
inductive VerifyError where
  | invalidToken (message : String)
  | upstreamUnavailable

/-- The `clientId` derivation (`src/index.ts` line 163):
`String(claims.client_id || claims.azp || claims.sub || claims.email ||
"unknown")` — JavaScript `||` picks the first truthy operand. -/
def jsOr (a : Option Json) (b : Json) : Json :=
  match a with
  | some v => if jsTruthy v then v else b
  | none => b

/-- The `clientId` computed from decoded claims. -/
def clientIdOfClaims (claims : Json) : String :=
  jsToString (jsOr (jLookup claims "client_id") (jsOr (jLookup claims "azp")
    (jsOr (jLookup claims "sub") (jsOr (jLookup claims "email")
      (.str "unknown")))))

/-- The `scopes` computed from decoded claims (`src/index.ts` line 162):
`typeof claims.scope === "string" ? claims.scope.split(" ").filter(Boolean) : []`. -/
def scopesOfClaims (claims : Json) : List String :=
  match jLookup claims "scope" with
  | some (.str s) =>
      ((splitOnChar ' ' s.data).map (fun l => String.mk l)).filter
        (fun x => x != "")
  | _ => []

/-- The `expiresAt` computed from decoded claims (`src/index.ts` line
164): `typeof claims.exp === "number" ? claims.exp : undefined`. -/
def expOfClaims (claims : Json) : Option Int :=
  match jLookup claims "exp" with
  | some (.num n) => some n
  | _ => none

/-- The identity derived from a token's decoded claims. -/
def authInfoOfClaims (claims : Json) : AuthInfo :=
  ⟨clientIdOfClaims claims, scopesOfClaims claims, expOfClaims claims⟩

/-- The error message thrown on a non-200 probe response:
`response.data?.message || "Token validation failed with status N"`
(a falsy `message` — absent, empty, `0`, … — falls back to the default). -/
def probeFailureMessage (status : Nat) (body : Json) : String :=
  match jLookup body "message" with
  | some v =>
      if jsTruthy v then jsToString v
      else "Token validation failed with status " ++ toString status
  | none => "Token validation failed with status " ++ toString status

/-- Result of one `verifyBearerToken` call: the returned identity or the
propagated error, the cache state after the call, and whether the
downstream probe was issued. -/
structure VerifyOutcome where
  result : Except VerifyError AuthInfo
  cache : Cache
  probed : Bool

/-- The cache-miss path of `verifyBearerToken` (`src/index.ts` lines
160-178): decode claims, derive the identity, issue the probe; non-200
throws, success stores `{authInfo, expiresAt: now + TTL}` and returns. -/
def verifyProbePhase (ttlMs now : Int) (probe : ProbeResult) (cache : Cache)
    (token : String) : VerifyOutcome :=
  let authInfo := authInfoOfClaims (parseJwtClaims token)
  match probe with
  | .unreachable => ⟨.error .upstreamUnavailable, cache, true⟩
  | .response status body =>
      if status ≠ 200 then
        ⟨.error (.invalidToken (probeFailureMessage status body)), cache, true⟩
      else
        ⟨.ok authInfo, cacheSet cache token ⟨now + ttlMs, authInfo⟩, true⟩

/-- Embedding of `verifyBearerToken` (`src/index.ts` lines 154-179).  `now` is
`Date.now()` at call time and `probe` the downstream's behaviour for this
call.  A cached entry with `expiresAt > now` is returned immediately
(no probe); otherwise — including an expired entry, which is not
deleted — the probe phase runs. -/
def verifyBearerToken (ttlMs now : Int) (probe : ProbeResult) (cache : Cache)
    (token : String) : VerifyOutcome :=
  match cacheGet cache token with
  | some cached =>
      if cached.expiresAt > now then ⟨.ok cached.authInfo, cache, false⟩
      else verifyProbePhase ttlMs now probe cache token
  | none => verifyProbePhase ttlMs now probe cache token

/-- An incoming HTTP request as the middleware sees it:
`req.headers.authorization` is absent, a string, or (for a repeated
header) a non-string value. -/
structure HttpRequest where
  authorization : Option Json

/-- The `req.auth` object the mixed middleware attaches on successful
verification. -/
structure ReqAuth where
  token : String
  clientId : String
  scopes : List String
  expiresAt : Option Int

/-- What the middleware does with a request: hand it to the protocol
handler (`next()`, carrying `req.auth` when set) or answer it directly
with a status and JSON body, in which case it never reaches the handler. -/
inductive MixedDecision where
  | pass (auth : Option ReqAuth)
  | reject (status : Nat) (body : Json)

/-- The 401 body the mixed middleware sends for a failed verification. -/
def invalidTokenBody : Json :=
  .obj [("error", .str "invalid_token"),
        ("error_description", .str "Bearer token is invalid")]

/-- The `/^Bearer\s+/i` stripping plus `.trim()` applied to the
`Authorization` header to obtain the raw token. -/
def stripBearerScheme (h : String) : String :=
  match h.data with
  | b :: e :: a :: r :: e2 :: r2 :: rest =>
      if b.toLower == 'b' && e.toLower == 'e' && a.toLower == 'a' &&
         r.toLower == 'r' && e2.toLower == 'e' && r2.toLower == 'r' then
        match rest with
        | c :: _ =>
            if isJsWs c then jsTrim (String.mk (rest.dropWhile isJsWs))
            else jsTrim h
        | [] => jsTrim h
      else jsTrim h
  | _ => jsTrim h

/-- Embedding of `mixedAuthMiddleware` (`src/index.ts` lines 2908-2931), wired in front
of the `/mcp` GET/POST/DELETE handler when `MCP_AUTH_MODE === "mixed"`:
a missing / non-string / empty `Authorization` header falls through to
the handler with no auth context; otherwise the header is stripped of its
`Bearer` scheme and verified — failure is answered 401 with
`invalidTokenBody`, success attaches `req.auth` and falls through. -/
def mixedAuthMiddleware (ttlMs now : Int) (probe : ProbeResult)
    (cache : Cache) (req : HttpRequest) : MixedDecision × Cache :=
  match req.authorization with
  | some (.str h) =>
      if h = "" then (.pass none, cache)
      else
        let token := stripBearerScheme h
        let out := verifyBearerToken ttlMs now probe cache token
        match out.result with
        | .ok info =>
            (.pass (some ⟨token, info.clientId, info.scopes, info.expiresAt⟩),
             out.cache)
        | .error _ => (.reject 401 invalidTokenBody, out.cache)
  | some _ => (.pass none, cache)
  | none => (.pass none, cache)

/-- The OAuth metadata object `buildOAuthMetadata` constructs
(`src/index.ts` lines 121-151).  `Option` fields are `undefined` when
`none`; array-valued discovery fields are passed through as raw JSON
arrays. -/
structure OAuthMetadata where
  issuer : String
  authorization_endpoint : String
  token_endpoint : String
  registration_endpoint : Option String
  scopes_supported : List Json
  response_types_supported : List Json
  response_modes_supported : Option (List Json)
  grant_types_supported : Option (List Json)
  token_endpoint_auth_methods_supported : Option (List Json)
  token_endpoint_auth_signing_alg_values_supported : Option (List Json)
  service_documentation : Option String
  revocation_endpoint : Option String
  revocation_endpoint_auth_methods_supported : Option (List Json)
  revocation_endpoint_auth_signing_alg_values_supported : Option (List Json)
  introspection_endpoint : Option String
  introspection_endpoint_auth_methods_supported : Option (List Json)
  introspection_endpoint_auth_signing_alg_values_supported : Option (List Json)
  code_challenge_methods_supported : List Json
  client_id_metadata_document_supported : Bool

/-- Model of `x ? String(x) : undefined` for an optional discovery field. -/
def optStringField (o : Option Json) : Option String :=
  match o with
  | some v => if jsTruthy v then some (jsToString v) else none
  | none => none

/-- Model of `Array.isArray(x) ? x : fallback` for an array discovery field with a
documented fallback. -/
def arrFieldD (o : Option Json) (fallback : List Json) : List Json :=
  match o with
  | some (.arr xs) => xs
  | _ => fallback

/-- Model of `Array.isArray(x) ? x : undefined` for an optional array discovery
field. -/
def optArrField (o : Option Json) : Option (List Json) :=
  match o with
  | some (.arr xs) => some xs
  | _ => none

/-- Outcome of the one-time discovery `fetch`: a rejection (network
failure) or a response with its status and JSON body (`none` when
`response.json()` would reject). -/
inductive FetchOutcome where
  | failure
  | response (status : Nat) (body : Option Json)

/-- Model of `Response.ok`: status in the 200-299 range. -/
def fetchOk (status : Nat) : Bool := 200 ≤ status && status < 300

/-- Issuer normalization: `MCP_OIDC_ISSUER_URL.replace(/\/+$/, "")`. -/
def stripTrailingSlashes (s : String) : String :=
  String.mk ((s.data.reverse.dropWhile (fun c => c == '/')).reverse)

/-- The discovery URL fetched at startup. -/
def wellKnownUrl (issuer : String) : String :=
  stripTrailingSlashes issuer ++ "/.well-known/openid-configuration"

/-- Embedding of `buildOAuthMetadata` (`src/index.ts` lines 107-151), with the network
modelled as a URL-indexed oracle.  `null` is returned when no issuer is
configured (a set-but-empty issuer URL is falsy); otherwise a non-OK
discovery response, an unparsable body, or a discovery document with any
mandatory field missing/falsy throws — modelled as `Except.error`.
Optional fields are passed through only when present and of the expected
shape; the documented array fallbacks apply, and
`client_id_metadata_document_supported` is `Boolean(...)`-coerced. -/
def buildOAuthMetadata (cfg : Config) (fetch : String → FetchOutcome) :
    Except String (Option OAuthMetadata) :=
  match cfg.oidcIssuerUrl with
  | none => .ok none
  | some u =>
    if u = "" then .ok none
    else
      match fetch (wellKnownUrl u) with
      | .failure => .error "fetch failed"
      | .response status body =>
        if !fetchOk status then
          .error ("Unable to load OIDC metadata from issuer (" ++
            toString status ++ ")")
        else
          match body with
          | none => .error "invalid JSON in OIDC metadata response"
          | some oidc =>
            if !(jsTruthyOpt (jLookup oidc "issuer") &&
                 jsTruthyOpt (jLookup oidc "authorization_endpoint") &&
                 jsTruthyOpt (jLookup oidc "token_endpoint")) then
              .error "OIDC discovery document is missing required OAuth fields"
            else
              .ok (some {
                issuer := jsToString ((jLookup oidc "issuer").getD .null)
                authorization_endpoint :=
                  jsToString ((jLookup oidc "authorization_endpoint").getD .null)
                token_endpoint :=
                  jsToString ((jLookup oidc "token_endpoint").getD .null)
                registration_endpoint :=
                  optStringField (jLookup oidc "registration_endpoint")
                scopes_supported :=
                  arrFieldD (jLookup oidc "scopes_supported")
                    (cfg.oidcScopes.map .str)
                response_types_supported :=
                  arrFieldD (jLookup oidc "response_types_supported")
                    [.str "code"]
                response_modes_supported :=
                  optArrField (jLookup oidc "response_modes_supported")
                grant_types_supported :=
                  optArrField (jLookup oidc "grant_types_supported")
                token_endpoint_auth_methods_supported :=
                  optArrField (jLookup oidc "token_endpoint_auth_methods_supported")
                token_endpoint_auth_signing_alg_values_supported :=
                  optArrField
                    (jLookup oidc "token_endpoint_auth_signing_alg_values_supported")
                service_documentation :=
                  optStringField (jLookup oidc "service_documentation")
                revocation_endpoint :=
                  optStringField (jLookup oidc "revocation_endpoint")
                revocation_endpoint_auth_methods_supported :=
                  optArrField
                    (jLookup oidc "revocation_endpoint_auth_methods_supported")
                revocation_endpoint_auth_signing_alg_values_supported :=
                  optArrField
                    (jLookup oidc "revocation_endpoint_auth_signing_alg_values_supported")
                introspection_endpoint :=
                  optStringField (jLookup oidc "introspection_endpoint")
                introspection_endpoint_auth_methods_supported :=
                  optArrField
                    (jLookup oidc "introspection_endpoint_auth_methods_supported")
                introspection_endpoint_auth_signing_alg_values_supported :=
                  optArrField
                    (jLookup oidc "introspection_endpoint_auth_signing_alg_values_supported")
                code_challenge_methods_supported :=
                  arrFieldD (jLookup oidc "code_challenge_methods_supported")
                    [.str "S256"]
                client_id_metadata_document_supported :=
                  jsTruthyOpt
                    (jLookup oidc "client_id_metadata_document_supported")
              })

/-- One optional entry of a serialised JSON object (`undefined` fields
are omitted by `JSON.stringify` / `res.json`). -/
def optEntry (k : String) (v : Option Json) : List (String × Json) :=
  match v with
  | some j => [(k, j)]
  | none => []

/-- JSON serialisation of the built metadata, as republished verbatim by
the well-known endpoints (`res.json(oauthMetadata)`): field order follows
the object literal, `undefined` fields are omitted. -/
def metadataToJson (m : OAuthMetadata) : Json :=
  .obj (
    [("issuer", Json.str m.issuer),
     ("authorization_endpoint", Json.str m.authorization_endpoint),
     ("token_endpoint", Json.str m.token_endpoint)]
    ++ optEntry "registration_endpoint" (m.registration_endpoint.map .str)
    ++ [("scopes_supported", Json.arr m.scopes_supported),
        ("response_types_supported", Json.arr m.response_types_supported)]
    ++ optEntry "response_modes_supported" (m.response_modes_supported.map .arr)
    ++ optEntry "grant_types_supported" (m.grant_types_supported.map .arr)
    ++ optEntry "token_endpoint_auth_methods_supported"
        (m.token_endpoint_auth_methods_supported.map .arr)
    ++ optEntry "token_endpoint_auth_signing_alg_values_supported"
        (m.token_endpoint_auth_signing_alg_values_supported.map .arr)
    ++ optEntry "service_documentation" (m.service_documentation.map .str)
    ++ optEntry "revocation_endpoint" (m.revocation_endpoint.map .str)
    ++ optEntry "revocation_endpoint_auth_methods_supported"
        (m.revocation_endpoint_auth_methods_supported.map .arr)
    ++ optEntry "revocation_endpoint_auth_signing_alg_values_supported"
        (m.revocation_endpoint_auth_signing_alg_values_supported.map .arr)
    ++ optEntry "introspection_endpoint" (m.introspection_endpoint.map .str)
    ++ optEntry "introspection_endpoint_auth_methods_supported"
        (m.introspection_endpoint_auth_methods_supported.map .arr)
    ++ optEntry "introspection_endpoint_auth_signing_alg_values_supported"
        (m.introspection_endpoint_auth_signing_alg_values_supported.map .arr)
    ++ [("code_challenge_methods_supported",
          Json.arr m.code_challenge_methods_supported),
        ("client_id_metadata_document_supported",
          Json.bool m.client_id_metadata_document_supported)])

/-- The middleware posture `startHttpMode` wires in front of the `/mcp`
routes: `requireBearerAuth` for `"oauth"`, `mixedAuthMiddleware` for
`"mixed"`, nothing otherwise. -/
inductive Gate where
  | strict
  | mixed
  | passthrough

/-- The gate selected from the configured auth mode. -/
def selectGate (cfg : Config) : Gate :=
  if cfg.authMode = "oauth" then .strict
  else if cfg.authMode = "mixed" then .mixed
  else .passthrough

/-- The serving state reached when startup succeeds: the metadata the
well-known endpoints republish (when OAuth is enabled) and the gate in
front of the protocol endpoint. -/
structure HttpSetup where
  wellKnownMetadata : Option OAuthMetadata
  gate : Gate

/-- The auth phase of `startHttpMode` (`src/index.ts` lines 2845-2869)
followed by the route wiring: for any auth mode other than `"none"`, a
missing (falsy) issuer URL throws, a failed `buildOAuthMetadata` throws,
and a `null` metadata result throws — all before the `/mcp` routes are
registered and `app.listen` is called, so an `Except.error` means the
protocol endpoint never starts serving. -/
def startHttpMode (cfg : Config) (fetch : String → FetchOutcome) :
    Except String HttpSetup :=
  if cfg.authMode ≠ "none" then
    if !jsTruthyOpt (cfg.oidcIssuerUrl.map .str) then
      .error "MCP_AUTH_MODE is oauth/mixed but MCP_OIDC_ISSUER_URL is not configured"
    else
      match buildOAuthMetadata cfg fetch with
      | .error e => .error e
      | .ok none => .error "Unable to resolve OAuth metadata"
      | .ok (some m) => .ok ⟨some m, selectGate cfg⟩
  else .ok ⟨none, selectGate cfg⟩


/-! ### Shared helper lemmas -/

/-- A string other than the empty string has positive length. -/
theorem string_length_pos {t : String} (h : t ≠ "") : t.length > 0 := by
  cases t with
  | mk data =>
    cases data with
    | nil => exact absurd rfl h
    | cons c cs => simp [String.length]

/-- Lookup after an overwrite at the same key. -/
theorem cacheGet_cacheSet_self (c : Cache) (k : String) (v : CacheEntry) :
    cacheGet (cacheSet c k v) k = some v := by
  induction c with
  | nil => simp [cacheSet, cacheGet]
  | cons hd tl ih =>
    obtain ⟨k', v'⟩ := hd
    by_cases hk : k' = k
    · simp [cacheSet, cacheGet, hk]
    · simp [cacheSet, cacheGet, hk, ih]

/-- An overwrite never shrinks the association list. -/
theorem length_cacheSet_ge (c : Cache) (k : String) (v : CacheEntry) :
    c.length ≤ (cacheSet c k v).length := by
  induction c with
  | nil => simp [cacheSet]
  | cons hd tl ih =>
    obtain ⟨k', v'⟩ := hd
    by_cases hk : k' = k
    · simp [cacheSet, hk]
    · simpa [cacheSet, hk] using ih

/-- Writing a fresh key grows the association list by exactly one. -/
theorem length_cacheSet_fresh (c : Cache) (k : String) (v : CacheEntry)
    (h : cacheGet c k = none) : (cacheSet c k v).length = c.length + 1 := by
  induction c with
  | nil => simp [cacheSet]
  | cons hd tl ih =>
    obtain ⟨k', v'⟩ := hd
    by_cases hk : k' = k
    · simp [cacheGet, hk] at h
    · simp [cacheGet, hk] at h
      simp [cacheSet, hk, ih h]

/-! ### Claim theorems -/

/-- Claim C3: the credential resolver is a pure function of the call
context and the process-wide configuration.  A context carrying a
non-empty string access token resolves to that token regardless of the
legacy key; a context without such a token resolves to the legacy static
key exactly when legacy fallback is enabled and a (non-empty) legacy key
is configured, and to no credential otherwise. -/
theorem resolveAccessToken_spec (cfg : Config) (ctx : CallContext) :
    (∀ t, ctx.authInfoToken = some (.str t) → t ≠ "" →
        resolveAccessToken cfg ctx = some t) ∧
    ((∀ t, t ≠ "" → ctx.authInfoToken ≠ some (Json.str t)) →
      ((∀ k, cfg.allowLegacyFallback = true → cfg.legacyApiKey = some k →
          k ≠ "" → resolveAccessToken cfg ctx = some k) ∧
       ((cfg.allowLegacyFallback = false ∨ cfg.legacyApiKey = none ∨
           cfg.legacyApiKey = some "") →
          resolveAccessToken cfg ctx = none))) := by
  constructor
  · intro t ht hne
    have hpos := string_length_pos hne
    simp [resolveAccessToken, ht, hpos]
  · intro hno
    have hres : resolveAccessToken cfg ctx =
        (if cfg.allowLegacyFallback ∧ jsTruthyOpt (cfg.legacyApiKey.map .str) then
          cfg.legacyApiKey
        else none) := by
      match hctx : ctx.authInfoToken with
      | none => simp [resolveAccessToken, hctx]
      | some (Json.str t) =>
        have : t = "" := by
          by_contra hne
          exact hno t hne hctx
        subst this
        simp [resolveAccessToken, hctx]
      | some Json.null => simp [resolveAccessToken, hctx]
      | some (Json.bool b) => simp [resolveAccessToken, hctx]
      | some (Json.num n) => simp [resolveAccessToken, hctx]
      | some (Json.arr xs) => simp [resolveAccessToken, hctx]
      | some (Json.obj kvs) => simp [resolveAccessToken, hctx]
    constructor
    · intro k hfb hk hkne
      simp [hres, hfb, hk, jsTruthyOpt, jsTruthy, hkne]
    · rintro (hfb | hk | hk)
      · simp [hres, hfb]
      · simp [hres, hk, jsTruthyOpt]
      · simp [hres, hk, jsTruthyOpt, jsTruthy]

/-- Witness for C3: with token "abc" in the context the resolver returns
"abc" even though a legacy key "K" is configured; with an empty context
and fallback enabled it returns "K"; with fallback disabled it returns
nothing. -/
theorem resolveAccessToken_spec_witness :
    resolveAccessToken ⟨some "K", true, "none", none, [], 60000⟩
        ⟨some (.str "abc")⟩ = some "abc" ∧
    resolveAccessToken ⟨some "K", true, "none", none, [], 60000⟩ ⟨none⟩
        = some "K" ∧
    resolveAccessToken ⟨some "K", false, "none", none, [], 60000⟩ ⟨none⟩
        = none := by
  refine ⟨?_, ?_, ?_⟩
  · exact (resolveAccessToken_spec ⟨some "K", true, "none", none, [], 60000⟩
      ⟨some (.str "abc")⟩).1 "abc" rfl (by decide)
  · exact ((resolveAccessToken_spec ⟨some "K", true, "none", none, [], 60000⟩
      ⟨none⟩).2 (by intro t _ h; exact Option.noConfusion h)).1 "K" rfl rfl
        (by decide)
  · exact ((resolveAccessToken_spec ⟨some "K", false, "none", none, [], 60000⟩
      ⟨none⟩).2 (by intro t _ h; exact Option.noConfusion h)).2 (Or.inl rfl)

/-- Claim C9: claims decoding is total.  For every input string the
decoder either returns the JSON value parsed from the token's middle
segment or, when the token has fewer than two dot-separated segments or
the decoded payload is not valid JSON, the empty claims object — it is a
total function (it never raises), and the result depends only on the
middle segment (in particular no signature segment is inspected and no
local cryptographic check occurs). -/
theorem parseJwtClaims_total_spec (t : String) :
    (jwtPayloadSegment t = none → parseJwtClaims t = .obj []) ∧
    (∀ payload, jwtPayloadSegment t = some payload →
       (∃ j, jsonParse (bufToUtf8 (b64urlDecode payload)) = some j ∧
             parseJwtClaims t = j) ∨
       (jsonParse (bufToUtf8 (b64urlDecode payload)) = none ∧
        parseJwtClaims t = .obj [])) ∧
    (∀ t', jwtPayloadSegment t' = jwtPayloadSegment t →
        parseJwtClaims t' = parseJwtClaims t) := by
  refine ⟨?_, ?_, ?_⟩
  · intro h
    simp [parseJwtClaims, h]
  · intro payload h
    match hj : jsonParse (bufToUtf8 (b64urlDecode payload)) with
    | some j => exact Or.inl ⟨j, rfl, by simp [parseJwtClaims, h, hj]⟩
    | none => exact Or.inr ⟨rfl, by simp [parseJwtClaims, h, hj]⟩
  · intro t' h
    simp [parseJwtClaims, h]

/-- Witness for C9: on the token "x.eyJleHAiOjF9" (payload `{"exp":1}`)
the decoder returns the parsed claims, and the token
"sig1.eyJleHAiOjF9.sigA" with the same middle segment decodes to the
same claims as "sig2.eyJleHAiOjF9.sigB". -/
theorem parseJwtClaims_total_spec_witness :
    ((∃ j, jsonParse (bufToUtf8 (b64urlDecode "eyJleHAiOjF9".data)) = some j ∧
        parseJwtClaims "x.eyJleHAiOjF9" = j) ∨
     (jsonParse (bufToUtf8 (b64urlDecode "eyJleHAiOjF9".data)) = none ∧
        parseJwtClaims "x.eyJleHAiOjF9" = .obj [])) ∧
    parseJwtClaims "sig1.eyJleHAiOjF9.sigA"
      = parseJwtClaims "sig2.eyJleHAiOjF9.sigB" := by
  constructor
  · exact (parseJwtClaims_total_spec "x.eyJleHAiOjF9").2.1 "eyJleHAiOjF9".data rfl
  · exact (parseJwtClaims_total_spec "sig2.eyJleHAiOjF9.sigB").2.2
      "sig1.eyJleHAiOjF9.sigA" rfl


/-- With no fresh cache hit (no entry, or only an expired one) the
verifier runs its probe phase. -/
theorem verify_eq_probePhase (ttlMs now : Int) (probe : ProbeResult)
    (cache : Cache) (token : String)
    (h : ∀ entry, cacheGet cache token = some entry → entry.expiresAt ≤ now) :
    verifyBearerToken ttlMs now probe cache token
      = verifyProbePhase ttlMs now probe cache token := by
  match hc : cacheGet cache token with
  | none => simp [verifyBearerToken, hc]
  | some entry =>
    have hle := h entry hc
    simp [verifyBearerToken, hc, show ¬entry.expiresAt > now by omega]

/-- The probe phase never shrinks the cache. -/
theorem length_le_probePhase (ttlMs now : Int) (probe : ProbeResult)
    (cache : Cache) (token : String) :
    cache.length ≤ (verifyProbePhase ttlMs now probe cache token).cache.length := by
  cases probe with
  | unreachable => simp [verifyProbePhase]
  | response s body =>
    by_cases hs : s = 200
    · subst hs
      simpa [verifyProbePhase] using length_cacheSet_ge cache token _
    · simp [verifyProbePhase, hs]

/-- Claim C2: calling verify a second time before the cache entry written
by a first (cache-missing, successful) call expires issues no second
probe: the second call is served from the cache with the same result and
an unchanged cache, and exactly one probe is issued across the two
calls. -/
theorem verify_twice_one_probe (ttlMs t1 t2 : Int) (body : Json)
    (p2 : ProbeResult) (cache : Cache) (token : String)
    (hmiss : cacheGet cache token = none) (hfresh : t2 < t1 + ttlMs) :
    (verifyBearerToken ttlMs t1 (.response 200 body) cache token).probed = true ∧
    verifyBearerToken ttlMs t2 p2
        (verifyBearerToken ttlMs t1 (.response 200 body) cache token).cache token
      = ⟨(verifyBearerToken ttlMs t1 (.response 200 body) cache token).result,
         (verifyBearerToken ttlMs t1 (.response 200 body) cache token).cache,
         false⟩ ∧
    ((if (verifyBearerToken ttlMs t1 (.response 200 body) cache token).probed
        then 1 else 0) +
     (if (verifyBearerToken ttlMs t2 p2
            (verifyBearerToken ttlMs t1 (.response 200 body) cache token).cache
            token).probed
        then 1 else 0)) = 1 := by
  have h1 : verifyBearerToken ttlMs t1 (.response 200 body) cache token
      = ⟨.ok (authInfoOfClaims (parseJwtClaims token)),
         cacheSet cache token
           ⟨t1 + ttlMs, authInfoOfClaims (parseJwtClaims token)⟩, true⟩ := by
    simp [verifyBearerToken, hmiss, verifyProbePhase]
  rw [h1]
  have h2 := cacheGet_cacheSet_self cache token
    ⟨t1 + ttlMs, authInfoOfClaims (parseJwtClaims token)⟩
  have h3 : verifyBearerToken ttlMs t2 p2
      (cacheSet cache token
        ⟨t1 + ttlMs, authInfoOfClaims (parseJwtClaims token)⟩) token
      = ⟨.ok (authInfoOfClaims (parseJwtClaims token)),
         cacheSet cache token
           ⟨t1 + ttlMs, authInfoOfClaims (parseJwtClaims token)⟩, false⟩ := by
    simp [verifyBearerToken, h2, show t1 + ttlMs > t2 by omega]
  exact ⟨rfl, by rw [h3], by rw [h3]; simp⟩

/-- Witness for C2: first call on an empty cache at time 0 probes and
succeeds; a second call at time 1 (within the 60000 ms TTL) is served
from the cache even though its own probe oracle is unreachable. -/
theorem verify_twice_one_probe_witness :
    (verifyBearerToken 60000 0 (.response 200 .null) [] "x.e30").probed = true ∧
    verifyBearerToken 60000 1 .unreachable
        (verifyBearerToken 60000 0 (.response 200 .null) [] "x.e30").cache "x.e30"
      = ⟨(verifyBearerToken 60000 0 (.response 200 .null) [] "x.e30").result,
         (verifyBearerToken 60000 0 (.response 200 .null) [] "x.e30").cache,
         false⟩ ∧
    ((if (verifyBearerToken 60000 0 (.response 200 .null) [] "x.e30").probed
        then 1 else 0) +
     (if (verifyBearerToken 60000 1 .unreachable
            (verifyBearerToken 60000 0 (.response 200 .null) [] "x.e30").cache
            "x.e30").probed
        then 1 else 0)) = 1 :=
  verify_twice_one_probe 60000 0 1 .null .unreachable [] "x.e30" rfl
    (by decide)

/-- Claim C5: a token whose decoded `exp` claim lies in the past is still
probed — the verifier never decides from the local expiry — and the
probe's status alone determines the outcome: 200 succeeds, any other
status fails with `invalidToken`, an unreachable downstream fails with
`upstreamUnavailable`. -/
theorem expired_exp_still_probes (ttlMs now : Int) (probe : ProbeResult)
    (cache : Cache) (token : String) (e : Int)
    (hnohit : ∀ entry, cacheGet cache token = some entry →
        entry.expiresAt ≤ now)
    (_hexp : expOfClaims (parseJwtClaims token) = some e)
    (_hpast : e * 1000 < now) :
    (verifyBearerToken ttlMs now probe cache token).probed = true ∧
    (∀ body, (verifyBearerToken ttlMs now (.response 200 body) cache token).result
        = .ok (authInfoOfClaims (parseJwtClaims token))) ∧
    (∀ s body, s ≠ 200 →
        (verifyBearerToken ttlMs now (.response s body) cache token).result
          = .error (.invalidToken (probeFailureMessage s body))) ∧
    (verifyBearerToken ttlMs now .unreachable cache token).result
      = .error .upstreamUnavailable := by
  refine ⟨?_, ?_, ?_, ?_⟩
  · rw [verify_eq_probePhase ttlMs now probe cache token hnohit]
    cases probe with
    | unreachable => rfl
    | response s body =>
      by_cases hs : s = 200
      · subst hs; simp [verifyProbePhase]
      · simp [verifyProbePhase, hs]
  · intro body
    rw [verify_eq_probePhase ttlMs now _ cache token hnohit]
    simp [verifyProbePhase]
  · intro s body hs
    rw [verify_eq_probePhase ttlMs now _ cache token hnohit]
    simp [verifyProbePhase, hs]
  · rw [verify_eq_probePhase ttlMs now _ cache token hnohit]
    rfl

/-- Witness for C5: the token with payload `{"exp":1}` expired long
before `now = 1000000`, yet the probe is issued and a 200 response makes
verification succeed. -/
theorem expired_exp_still_probes_witness :
    (verifyBearerToken 60000 1000000 (.response 200 .null) []
        "x.eyJleHAiOjF9").probed = true ∧
    (verifyBearerToken 60000 1000000 (.response 200 .null) []
        "x.eyJleHAiOjF9").result
      = .ok (authInfoOfClaims (parseJwtClaims "x.eyJleHAiOjF9")) := by
  have h := expired_exp_still_probes 60000 1000000 (.response 200 .null) []
    "x.eyJleHAiOjF9" 1 (by intro entry h'; exact Option.noConfusion h') rfl
    (by decide)
  exact ⟨h.1, h.2.1 .null⟩

/-- Claim C6: cache behaviour of the verifier.  (1) an entry written on a
successful probe carries `cacheExpiresAt = now + TTL`, a configured
constant independent of the token's own `exp`; (2) a lookup hits only
while `now < cacheExpiresAt`, returning the entry with no probe and no
cache change; (3) an expired entry behaves exactly like a miss (the probe
phase runs) and the lookup does not delete it (on failure the cache is
unchanged); (4) a put for a present token overwrites the entry; (5) no
operation bounds the cache's size: a set never shrinks it, a fresh key
always grows it, and verify never shrinks it. -/
theorem tokenVerifyCache_invariants (ttlMs now : Int) (cache : Cache)
    (token : String) :
    (∀ body, (∀ e, cacheGet cache token = some e → e.expiresAt ≤ now) →
       cacheGet (verifyBearerToken ttlMs now (.response 200 body) cache
           token).cache token
         = some ⟨now + ttlMs, authInfoOfClaims (parseJwtClaims token)⟩) ∧
    (∀ e, cacheGet cache token = some e → now < e.expiresAt → ∀ probe,
       verifyBearerToken ttlMs now probe cache token
         = ⟨.ok e.authInfo, cache, false⟩) ∧
    (∀ e, cacheGet cache token = some e → e.expiresAt ≤ now → ∀ probe,
       verifyBearerToken ttlMs now probe cache token
           = verifyProbePhase ttlMs now probe cache token ∧
       (∀ err, (verifyBearerToken ttlMs now probe cache token).result
            = .error err →
          (verifyBearerToken ttlMs now probe cache token).cache = cache)) ∧
    (∀ (c : Cache) (k : String) (v : CacheEntry),
       cacheGet (cacheSet c k v) k = some v) ∧
    (∀ (c : Cache) (k : String) (v : CacheEntry),
       c.length ≤ (cacheSet c k v).length) ∧
    (∀ (c : Cache) (k : String) (v : CacheEntry), cacheGet c k = none →
       (cacheSet c k v).length = c.length + 1) ∧
    (∀ probe, cache.length
        ≤ (verifyBearerToken ttlMs now probe cache token).cache.length) := by
  refine ⟨?_, ?_, ?_, cacheGet_cacheSet_self, length_cacheSet_ge,
    length_cacheSet_fresh, ?_⟩
  · intro body h
    rw [verify_eq_probePhase ttlMs now _ cache token h]
    simp [verifyProbePhase, cacheGet_cacheSet_self]
  · intro e he hlt probe
    simp [verifyBearerToken, he, show e.expiresAt > now by omega]
  · intro e he hle probe
    have hno : ∀ entry, cacheGet cache token = some entry →
        entry.expiresAt ≤ now := by
      intro entry h'
      rw [he] at h'
      injection h' with hh
      rw [← hh]
      exact hle
    have hv := verify_eq_probePhase ttlMs now probe cache token hno
    refine ⟨hv, ?_⟩
    intro err herr
    rw [hv] at herr ⊢
    cases probe with
    | unreachable => rfl
    | response s body =>
      by_cases hs : s = 200
      · subst hs; simp [verifyProbePhase] at herr
      · simp [verifyProbePhase, hs]
  · intro probe
    match hc : cacheGet cache token with
    | none =>
      rw [verify_eq_probePhase ttlMs now probe cache token
        (by intro entry h'; rw [hc] at h'; exact Option.noConfusion h')]
      exact length_le_probePhase ttlMs now probe cache token
    | some entry =>
      by_cases hgt : entry.expiresAt > now
      · simp [verifyBearerToken, hc, hgt]
      · rw [verify_eq_probePhase ttlMs now probe cache token
          (by intro e' h'; rw [hc] at h'; injection h' with hh; rw [← hh]; omega)]
        exact length_le_probePhase ttlMs now probe cache token

/-- Witness for C6: on the empty cache the entry written for token
"x.e30" at time 5 with TTL 60000 expires at 60005; a fresh hit at time 5
returns it without probing; a put on a fresh key grows the cache by
one. -/
theorem tokenVerifyCache_invariants_witness :
    cacheGet (verifyBearerToken 60000 5 (.response 200 .null) []
        "x.e30").cache "x.e30"
      = some ⟨5 + 60000, authInfoOfClaims (parseJwtClaims "x.e30")⟩ ∧
    verifyBearerToken 60000 5 .unreachable
        [("x.e30", ⟨60005, authInfoOfClaims (parseJwtClaims "x.e30")⟩)] "x.e30"
      = ⟨.ok (authInfoOfClaims (parseJwtClaims "x.e30")),
         [("x.e30", ⟨60005, authInfoOfClaims (parseJwtClaims "x.e30")⟩)],
         false⟩ ∧
    (cacheSet [] "t" ⟨1, ⟨"c", [], none⟩⟩).length = 0 + 1 := by
  refine ⟨?_, ?_, ?_⟩
  · exact (tokenVerifyCache_invariants 60000 5 [] "x.e30").1 .null
      (by intro e h'; exact Option.noConfusion h')
  · exact (tokenVerifyCache_invariants 60000 5
      [("x.e30", ⟨60005, authInfoOfClaims (parseJwtClaims "x.e30")⟩)]
      "x.e30").2.1 ⟨60005, authInfoOfClaims (parseJwtClaims "x.e30")⟩ rfl
      (by decide) .unreachable
  · exact (tokenVerifyCache_invariants 1 1 [] "t").2.2.2.2.2.1 [] "t"
      ⟨1, ⟨"c", [], none⟩⟩ rfl

/-- Claim C7: verify either returns the identity derived from the claims,
or fails with an `invalidToken` error on a non-200 probe response
(carrying the downstream's message when the body has a non-empty one),
or fails with the distinct `upstreamUnavailable` error when the probe —
bounded by its 15000 ms timeout — cannot reach the downstream; the two
failure kinds are distinguishable. -/
theorem verify_error_taxonomy (ttlMs now : Int) (cache : Cache)
    (token : String) (hmiss : cacheGet cache token = none) :
    PROBE_TIMEOUT_MS = 15000 ∧
    (verifyBearerToken ttlMs now .unreachable cache token).result
      = .error .upstreamUnavailable ∧
    (∀ s body, s ≠ 200 →
       (verifyBearerToken ttlMs now (.response s body) cache token).result
         = .error (.invalidToken (probeFailureMessage s body))) ∧
    (∀ s body m, s ≠ 200 → jLookup body "message" = some (.str m) → m ≠ "" →
       (verifyBearerToken ttlMs now (.response s body) cache token).result
         = .error (.invalidToken m)) ∧
    (∀ body, (verifyBearerToken ttlMs now (.response 200 body) cache
        token).result = .ok (authInfoOfClaims (parseJwtClaims token))) ∧
    (∀ m, VerifyError.invalidToken m ≠ VerifyError.upstreamUnavailable) := by
  have hno : ∀ entry, cacheGet cache token = some entry →
      entry.expiresAt ≤ now := by
    intro entry h'
    rw [hmiss] at h'
    exact Option.noConfusion h'
  refine ⟨rfl, ?_, ?_, ?_, ?_, ?_⟩
  · rw [verify_eq_probePhase ttlMs now _ cache token hno]
    rfl
  · intro s body hs
    rw [verify_eq_probePhase ttlMs now _ cache token hno]
    simp [verifyProbePhase, hs]
  · intro s body m hs hmsg hne
    rw [verify_eq_probePhase ttlMs now _ cache token hno]
    have : probeFailureMessage s body = m := by
      simp [probeFailureMessage, hmsg, jsTruthy, hne, jsToString]
    simp [verifyProbePhase, hs, this]
  · intro body
    rw [verify_eq_probePhase ttlMs now _ cache token hno]
    simp [verifyProbePhase]
  · intro m h
    exact VerifyError.noConfusion h

/-- Witness for C7: on the empty cache, an unreachable probe yields
`upstreamUnavailable`, a 401 probe response with body
`{message: "bad token"}` yields `invalidToken "bad token"`, and a 200
response yields the derived identity. -/
theorem verify_error_taxonomy_witness :
    (verifyBearerToken 60000 0 .unreachable [] "x.e30").result
      = .error .upstreamUnavailable ∧
    (verifyBearerToken 60000 0
        (.response 401 (.obj [("message", .str "bad token")])) [] "x.e30").result
      = .error (.invalidToken "bad token") ∧
    (verifyBearerToken 60000 0 (.response 200 .null) [] "x.e30").result
      = .ok (authInfoOfClaims (parseJwtClaims "x.e30")) := by
  have h := verify_error_taxonomy 60000 0 [] "x.e30" rfl
  exact ⟨h.2.1,
    h.2.2.2.1 401 (.obj [("message", .str "bad token")]) "bad token"
      (by decide) rfl (by decide),
    h.2.2.2.2.1 .null⟩


/-- Claim C1: in mixed auth mode, a request with no `Authorization`
header passes to the protocol handler with an empty auth context and an
untouched cache; a request presenting a token whose verification fails is
answered 401 with `{error:"invalid_token"}` and (being answered, not
passed) never reaches the handler; a request whose token verifies reaches
the handler with an auth context carrying the token, clientId, scopes and
expiresAt. -/
theorem mixed_mode_cases (ttlMs now : Int) (probe : ProbeResult)
    (cache : Cache) :
    (∀ req : HttpRequest, req.authorization = none →
       mixedAuthMiddleware ttlMs now probe cache req = (.pass none, cache)) ∧
    (∀ (req : HttpRequest) (h : String), req.authorization = some (.str h) →
       h ≠ "" →
       ((∀ e, (verifyBearerToken ttlMs now probe cache
            (stripBearerScheme h)).result = .error e →
          mixedAuthMiddleware ttlMs now probe cache req
            = (.reject 401 invalidTokenBody,
               (verifyBearerToken ttlMs now probe cache
                 (stripBearerScheme h)).cache)) ∧
        (∀ info, (verifyBearerToken ttlMs now probe cache
            (stripBearerScheme h)).result = .ok info →
          mixedAuthMiddleware ttlMs now probe cache req
            = (.pass (some ⟨stripBearerScheme h, info.clientId, info.scopes,
                 info.expiresAt⟩),
               (verifyBearerToken ttlMs now probe cache
                 (stripBearerScheme h)).cache)))) ∧
    (∀ s b a, (MixedDecision.reject s b) ≠ MixedDecision.pass a) := by
  refine ⟨?_, ?_, ?_⟩
  · intro req hreq
    simp [mixedAuthMiddleware, hreq]
  · intro req h hreq hne
    constructor
    · intro e herr
      simp [mixedAuthMiddleware, hreq, hne, herr]
    · intro info hok
      simp [mixedAuthMiddleware, hreq, hne, hok]
  · intro s b a hcontra
    exact MixedDecision.noConfusion hcontra

/-- Witness for C1: a headerless request passes anonymously; the header
"Bearer x.e30" is rejected 401 when the probe answers 401, and passes
with the full auth context when the probe answers 200. -/
theorem mixed_mode_cases_witness :
    mixedAuthMiddleware 60000 0 (.response 200 .null) [] ⟨none⟩
      = (.pass none, []) ∧
    mixedAuthMiddleware 60000 0 (.response 401 .null) []
        ⟨some (.str "Bearer x.e30")⟩
      = (.reject 401 invalidTokenBody,
         (verifyBearerToken 60000 0 (.response 401 .null) []
           (stripBearerScheme "Bearer x.e30")).cache) ∧
    mixedAuthMiddleware 60000 0 (.response 200 .null) []
        ⟨some (.str "Bearer x.e30")⟩
      = (.pass (some ⟨stripBearerScheme "Bearer x.e30",
           (authInfoOfClaims (parseJwtClaims "x.e30")).clientId,
           (authInfoOfClaims (parseJwtClaims "x.e30")).scopes,
           (authInfoOfClaims (parseJwtClaims "x.e30")).expiresAt⟩),
         (verifyBearerToken 60000 0 (.response 200 .null) []
           (stripBearerScheme "Bearer x.e30")).cache) := by
  refine ⟨?_, ?_, ?_⟩
  · exact (mixed_mode_cases 60000 0 (.response 200 .null) []).1 ⟨none⟩ rfl
  · exact (((mixed_mode_cases 60000 0 (.response 401 .null) []).2.1
      ⟨some (.str "Bearer x.e30")⟩ "Bearer x.e30" rfl (by decide)).1
      (.invalidToken (probeFailureMessage 401 .null)) rfl)
  · exact (((mixed_mode_cases 60000 0 (.response 200 .null) []).2.1
      ⟨some (.str "Bearer x.e30")⟩ "Bearer x.e30" rfl (by decide)).2
      (authInfoOfClaims (parseJwtClaims "x.e30")) rfl)

/-- Claim C4: the metadata builder returns `none` when no issuer is
configured; with an issuer configured it fails on a non-OK discovery
response and on a discovery document missing any mandatory field; and for
any auth mode requiring OAuth (`oauth`/`mixed`), a missing issuer or a
failed build makes `startHttpMode` fail before any serving state exists —
a successful startup always carries built metadata, never a degraded
unauthenticated setup. -/
theorem oauth_metadata_failfast (cfg : Config)
    (fetch : String → FetchOutcome) :
    ((cfg.oidcIssuerUrl = none ∨ cfg.oidcIssuerUrl = some "") →
       buildOAuthMetadata cfg fetch = .ok none) ∧
    (∀ u, cfg.oidcIssuerUrl = some u → u ≠ "" →
       ((fetch (wellKnownUrl u) = .failure →
           ∃ msg, buildOAuthMetadata cfg fetch = .error msg) ∧
        (∀ s body, fetch (wellKnownUrl u) = .response s body →
           fetchOk s = false →
           buildOAuthMetadata cfg fetch
             = .error ("Unable to load OIDC metadata from issuer ("
                 ++ toString s ++ ")")) ∧
        (∀ s doc, fetch (wellKnownUrl u) = .response s (some doc) →
           fetchOk s = true →
           (jsTruthyOpt (jLookup doc "issuer") = false ∨
            jsTruthyOpt (jLookup doc "authorization_endpoint") = false ∨
            jsTruthyOpt (jLookup doc "token_endpoint") = false) →
           buildOAuthMetadata cfg fetch
             = .error "OIDC discovery document is missing required OAuth fields"))) ∧
    ((cfg.authMode = "oauth" ∨ cfg.authMode = "mixed") →
       ((jsTruthyOpt (cfg.oidcIssuerUrl.map .str) = false →
           ∃ msg, startHttpMode cfg fetch = .error msg) ∧
        (∀ msg, buildOAuthMetadata cfg fetch = .error msg →
           startHttpMode cfg fetch = .error msg) ∧
        (∀ setup, startHttpMode cfg fetch = .ok setup →
           ∃ m, buildOAuthMetadata cfg fetch = .ok (some m) ∧
             setup.wellKnownMetadata = some m))) := by
  refine ⟨?_, ?_, ?_⟩
  · rintro (h | h) <;> simp [buildOAuthMetadata, h]
  · intro u hu hne
    refine ⟨?_, ?_, ?_⟩
    · intro hf
      exact ⟨"fetch failed", by simp [buildOAuthMetadata, hu, hne, hf]⟩
    · intro s body hf hnok
      simp [buildOAuthMetadata, hu, hne, hf, hnok]
    · intro s doc hf hok hmiss
      rcases hmiss with hm | hm | hm <;>
        simp [buildOAuthMetadata, hu, hne, hf, hok, hm]
  · intro hmode
    have hne' : cfg.authMode ≠ "none" := by
      rcases hmode with h | h <;> rw [h] <;> decide
    refine ⟨?_, ?_, ?_⟩
    · intro hfalsy
      refine ⟨"MCP_AUTH_MODE is oauth/mixed but MCP_OIDC_ISSUER_URL is not configured", ?_⟩
      simp [startHttpMode, hne', hfalsy]
    · intro msg hb
      match hu : cfg.oidcIssuerUrl with
      | none => simp [buildOAuthMetadata, hu] at hb
      | some u =>
        by_cases hne2 : u = ""
        · subst hne2
          simp [buildOAuthMetadata, hu] at hb
        · have htr : jsTruthyOpt (cfg.oidcIssuerUrl.map .str) = true := by
            simp [hu, jsTruthyOpt, jsTruthy, hne2]
          simp [startHttpMode, hne', htr, hb]
    · intro setup hs
      by_cases htr : jsTruthyOpt (cfg.oidcIssuerUrl.map .str) = true
      · simp [startHttpMode, hne', htr] at hs
        match hb : buildOAuthMetadata cfg fetch with
        | .error e => rw [hb] at hs; simp at hs
        | .ok none => rw [hb] at hs; simp at hs
        | .ok (some m) =>
          rw [hb] at hs
          simp at hs
          exact ⟨m, rfl, by rw [← hs]⟩
      · rw [Bool.not_eq_true] at htr
        simp [startHttpMode, hne', htr] at hs

/-- Configuration used by concrete OAuth startup scenarios: mode `oauth`
with the issuer `https://idp.example/`. -/
def cfgOauthTest : Config :=
  ⟨none, true, "oauth", some "https://idp.example/",
   ["kapiti.read", "kapiti.write", "kapiti.admin"], 60000⟩

/-- A discovery document carrying only the three mandatory fields. -/
def mandatoryOnlyDoc : Json :=
  .obj [("issuer", .str "https://idp.example"),
        ("authorization_endpoint", .str "https://idp.example/auth"),
        ("token_endpoint", .str "https://idp.example/token")]

/-- Discovery oracle answering 200 with `mandatoryOnlyDoc`. -/
def fetchMandatoryOnly : String → FetchOutcome :=
  fun _ => .response 200 (some mandatoryOnlyDoc)

/-- A discovery document missing the mandatory `token_endpoint`. -/
def docMissingTokenEndpoint : Json :=
  .obj [("issuer", .str "https://idp.example"),
        ("authorization_endpoint", .str "https://idp.example/auth")]

/-- Discovery oracle answering 200 with `docMissingTokenEndpoint`. -/
def fetchMissingTokenEndpoint : String → FetchOutcome :=
  fun _ => .response 200 (some docMissingTokenEndpoint)

/-- Witness for C4: no issuer yields `ok none`; with an issuer, a
document missing `token_endpoint` makes the build error and aborts
`startHttpMode` in oauth mode. -/
theorem oauth_metadata_failfast_witness :
    buildOAuthMetadata ⟨none, true, "none", none, [], 60000⟩
        (fun _ => .failure) = .ok none ∧
    buildOAuthMetadata cfgOauthTest fetchMissingTokenEndpoint
      = .error "OIDC discovery document is missing required OAuth fields" ∧
    startHttpMode cfgOauthTest fetchMissingTokenEndpoint
      = .error "OIDC discovery document is missing required OAuth fields" := by
  refine ⟨?_, ?_, ?_⟩
  · exact (oauth_metadata_failfast ⟨none, true, "none", none, [], 60000⟩
      (fun _ => .failure)).1 (Or.inl rfl)
  · exact ((oauth_metadata_failfast cfgOauthTest
      fetchMissingTokenEndpoint).2.1 "https://idp.example/" rfl
      (by decide)).2.2 200 docMissingTokenEndpoint rfl (by decide)
      (Or.inr (Or.inr rfl))
  · exact ((oauth_metadata_failfast cfgOauthTest
      fetchMissingTokenEndpoint).2.2 (Or.inl rfl)).2.1 _
      (((oauth_metadata_failfast cfgOauthTest
        fetchMissingTokenEndpoint).2.1 "https://idp.example/" rfl
        (by decide)).2.2 200 docMissingTokenEndpoint rfl (by decide)
        (Or.inr (Or.inr rfl)))


/-- Claim C8 counterexample: building from a discovery document that
contains only the three mandatory fields, the serialised metadata still
CONTAINS the optional field `client_id_metadata_document_supported`,
defaulted by `Boolean(...)` to `false` — it is not absent, and it is not
one of the three documented array fallbacks, refuting "every optional
field is absent ... except the documented array fallbacks". -/
theorem metadata_cimds_not_absent :
    (buildOAuthMetadata cfgOauthTest fetchMandatoryOnly).map (fun o =>
        o.map (fun m =>
          jLookup (metadataToJson m) "client_id_metadata_document_supported"))
      = .ok (some (some (.bool false))) := rfl

/-- Claim C8 (amended): given a discovery document containing only the
three mandatory fields, `build()` produces metadata whose serialisation
carries exactly the three mandatory fields, the documented array
fallbacks (`response_types_supported = ["code"]`,
`code_challenge_methods_supported = ["S256"]`, `scopes_supported` = the
configured scope list) and the `Boolean(...)`-coerced
`client_id_metadata_document_supported = false`; every other optional
field is absent (omitted from the serialisation, not defaulted). -/
theorem metadata_mandatory_only_spec (cfg : Config)
    (fetch : String → FetchOutcome) (u : String)
    (kvs : List (String × Json)) (vi va vt : Json)
    (hu : cfg.oidcIssuerUrl = some u) (hne : u ≠ "")
    (hf : fetch (wellKnownUrl u) = .response 200 (some (.obj kvs)))
    (hvi : lookupKvs kvs "issuer" = some vi) (hti : jsTruthy vi = true)
    (hva : lookupKvs kvs "authorization_endpoint" = some va)
    (hta : jsTruthy va = true)
    (hvt : lookupKvs kvs "token_endpoint" = some vt) (htt : jsTruthy vt = true)
    (habs : ∀ k, k ≠ "issuer" → k ≠ "authorization_endpoint" →
        k ≠ "token_endpoint" → lookupKvs kvs k = none) :
    ∃ m, buildOAuthMetadata cfg fetch = .ok (some m) ∧
      metadataToJson m = .obj
        [("issuer", .str (jsToString vi)),
         ("authorization_endpoint", .str (jsToString va)),
         ("token_endpoint", .str (jsToString vt)),
         ("scopes_supported", .arr (cfg.oidcScopes.map .str)),
         ("response_types_supported", .arr [.str "code"]),
         ("code_challenge_methods_supported", .arr [.str "S256"]),
         ("client_id_metadata_document_supported", .bool false)] := by
  have hreg := habs "registration_endpoint" (by decide) (by decide) (by decide)
  have hsco := habs "scopes_supported" (by decide) (by decide) (by decide)
  have hrty := habs "response_types_supported" (by decide) (by decide) (by decide)
  have hrmo := habs "response_modes_supported" (by decide) (by decide) (by decide)
  have hgra := habs "grant_types_supported" (by decide) (by decide) (by decide)
  have htam := habs "token_endpoint_auth_methods_supported" (by decide)
    (by decide) (by decide)
  have htas := habs "token_endpoint_auth_signing_alg_values_supported"
    (by decide) (by decide) (by decide)
  have hdoc := habs "service_documentation" (by decide) (by decide) (by decide)
  have hrev := habs "revocation_endpoint" (by decide) (by decide) (by decide)
  have hrem := habs "revocation_endpoint_auth_methods_supported" (by decide)
    (by decide) (by decide)
  have hres := habs "revocation_endpoint_auth_signing_alg_values_supported"
    (by decide) (by decide) (by decide)
  have hint := habs "introspection_endpoint" (by decide) (by decide) (by decide)
  have hinm := habs "introspection_endpoint_auth_methods_supported" (by decide)
    (by decide) (by decide)
  have hins := habs "introspection_endpoint_auth_signing_alg_values_supported"
    (by decide) (by decide) (by decide)
  have hccm := habs "code_challenge_methods_supported" (by decide) (by decide)
    (by decide)
  have hcim := habs "client_id_metadata_document_supported" (by decide)
    (by decide) (by decide)
  refine ⟨{
      issuer := jsToString vi
      authorization_endpoint := jsToString va
      token_endpoint := jsToString vt
      registration_endpoint := none
      scopes_supported := cfg.oidcScopes.map .str
      response_types_supported := [.str "code"]
      response_modes_supported := none
      grant_types_supported := none
      token_endpoint_auth_methods_supported := none
      token_endpoint_auth_signing_alg_values_supported := none
      service_documentation := none
      revocation_endpoint := none
      revocation_endpoint_auth_methods_supported := none
      revocation_endpoint_auth_signing_alg_values_supported := none
      introspection_endpoint := none
      introspection_endpoint_auth_methods_supported := none
      introspection_endpoint_auth_signing_alg_values_supported := none
      code_challenge_methods_supported := [.str "S256"]
      client_id_metadata_document_supported := false }, ?_, ?_⟩
  · simp [buildOAuthMetadata, hu, hne, hf, fetchOk, jLookup, hvi, hva, hvt,
      jsTruthyOpt, hti, hta, htt, hreg, hsco, hrty, hrmo, hgra, htam, htas,
      hdoc, hrev, hrem, hres, hint, hinm, hins, hccm, hcim, optStringField,
      optArrField, arrFieldD]
  · simp [metadataToJson, optEntry]

/-- Witness for C8 (amended): the concrete mandatory-only document
produces exactly the seven serialised fields. -/
theorem metadata_mandatory_only_spec_witness :
    (buildOAuthMetadata cfgOauthTest fetchMandatoryOnly).map (fun o =>
        o.map metadataToJson)
      = .ok (some (.obj
          [("issuer", .str "https://idp.example"),
           ("authorization_endpoint", .str "https://idp.example/auth"),
           ("token_endpoint", .str "https://idp.example/token"),
           ("scopes_supported",
             .arr [.str "kapiti.read", .str "kapiti.write", .str "kapiti.admin"]),
           ("response_types_supported", .arr [.str "code"]),
           ("code_challenge_methods_supported", .arr [.str "S256"]),
           ("client_id_metadata_document_supported", .bool false)])) := by
  obtain ⟨m, hb, hj⟩ := metadata_mandatory_only_spec cfgOauthTest
    fetchMandatoryOnly "https://idp.example/"
    [("issuer", .str "https://idp.example"),
     ("authorization_endpoint", .str "https://idp.example/auth"),
     ("token_endpoint", .str "https://idp.example/token")]
    (.str "https://idp.example") (.str "https://idp.example/auth")
    (.str "https://idp.example/token") rfl (by decide) rfl rfl (by decide)
    rfl (by decide) rfl (by decide)
    (by intro k h1 h2 h3
        simp [lookupKvs, Ne.symm h1, Ne.symm h2, Ne.symm h3])
  rw [hb]
  simp only [Except.map, Option.map, hj]
  rfl

/-- Token whose payload decodes to `{"client_id":[]}`: the claim value is
present and truthy (an array), but its string conversion is empty. -/
def tokClientIdEmptyArr : String := "h.eyJjbGllbnRfaWQiOltdfQ"

/-- Claim C10 counterexample: the token with payload `{"client_id":[]}`
verifies (probe 200, empty cache) to the identity
`{clientId := "", scopes := [], expiresAt := none}` — the `client_id`
claim is present, yet the resulting clientId is the EMPTY string (the
string conversion of the truthy value `[]`), refuting "clientId is
always a non-empty string". -/
theorem verify_clientId_empty_counterexample :
    (verifyBearerToken 60000 0 (.response 200 .null) []
        tokClientIdEmptyArr).result = .ok ⟨"", [], none⟩ ∧
    jLookup (parseJwtClaims tokClientIdEmptyArr) "client_id"
      = some (.arr []) := ⟨rfl, rfl⟩

/-- Truthiness of an optional lookup decides a JavaScript `||` chain
step. -/
theorem jsOr_falsy {o : Option Json} {b : Json} (h : jsTruthyOpt o = false) :
    jsOr o b = b := by
  match o with
  | none => rfl
  | some v =>
    simp only [jsTruthyOpt] at h
    simp [jsOr, h]

/-- A truthy present operand wins a JavaScript `||` chain step. -/
theorem jsOr_some_truthy {o : Option Json} {v b : Json} (h : o = some v)
    (ht : jsTruthy v = true) : jsOr o b = v := by
  rw [h]
  simp [jsOr, ht]

/-- Claim C10 (amended): for a token that verifies on a cache miss, the
identity is derived deterministically from the decoded claims: clientId
is the JavaScript string conversion of the first TRUTHY claim among
client_id, azp, sub, email ("unknown" when none is truthy; a
present-but-falsy claim is skipped, and the conversion of a truthy value
such as `[]` can be the empty string); scopes is the list of non-empty
space-separated pieces of a string `scope` claim and `[]` for any
non-string `scope`; expiresAt is present exactly when `exp` is a
number. -/
theorem verify_identity_derivation (ttlMs now : Int) (body : Json)
    (cache : Cache) (token : String)
    (hmiss : cacheGet cache token = none) :
    ∃ info, (verifyBearerToken ttlMs now (.response 200 body) cache
        token).result = .ok info ∧
      ((jsTruthyOpt (jLookup (parseJwtClaims token) "client_id") = false →
        jsTruthyOpt (jLookup (parseJwtClaims token) "azp") = false →
        jsTruthyOpt (jLookup (parseJwtClaims token) "sub") = false →
        jsTruthyOpt (jLookup (parseJwtClaims token) "email") = false →
          info.clientId = "unknown") ∧
       (∀ v, jLookup (parseJwtClaims token) "client_id" = some v →
          jsTruthy v = true → info.clientId = jsToString v) ∧
       (∀ v, jsTruthyOpt (jLookup (parseJwtClaims token) "client_id") = false →
          jLookup (parseJwtClaims token) "azp" = some v → jsTruthy v = true →
          info.clientId = jsToString v) ∧
       (∀ v, jsTruthyOpt (jLookup (parseJwtClaims token) "client_id") = false →
          jsTruthyOpt (jLookup (parseJwtClaims token) "azp") = false →
          jLookup (parseJwtClaims token) "sub" = some v → jsTruthy v = true →
          info.clientId = jsToString v) ∧
       (∀ v, jsTruthyOpt (jLookup (parseJwtClaims token) "client_id") = false →
          jsTruthyOpt (jLookup (parseJwtClaims token) "azp") = false →
          jsTruthyOpt (jLookup (parseJwtClaims token) "sub") = false →
          jLookup (parseJwtClaims token) "email" = some v → jsTruthy v = true →
          info.clientId = jsToString v) ∧
       (∀ s, jLookup (parseJwtClaims token) "scope" = some (.str s) →
          info.scopes = ((splitOnChar ' ' s.data).map
            (fun l => String.mk l)).filter (fun x => x != "")) ∧
       ((∀ s, jLookup (parseJwtClaims token) "scope" ≠ some (.str s)) →
          info.scopes = []) ∧
       (∀ e, jLookup (parseJwtClaims token) "exp" = some (.num e) →
          info.expiresAt = some e) ∧
       ((∀ e, jLookup (parseJwtClaims token) "exp" ≠ some (.num e)) →
          info.expiresAt = none)) := by
  refine ⟨authInfoOfClaims (parseJwtClaims token), ?_, ?_, ?_, ?_, ?_, ?_,
    ?_, ?_, ?_, ?_⟩
  · rw [verify_eq_probePhase ttlMs now _ cache token
      (by intro entry h'; rw [hmiss] at h'; exact Option.noConfusion h')]
    simp [verifyProbePhase]
  · intro h1 h2 h3 h4
    simp [authInfoOfClaims, clientIdOfClaims, jsOr_falsy h1, jsOr_falsy h2,
      jsOr_falsy h3, jsOr_falsy h4, jsToString]
  · intro v hv ht
    simp [authInfoOfClaims, clientIdOfClaims, hv, jsOr, ht]
  · intro v h1 hv ht
    have hc : clientIdOfClaims (parseJwtClaims token) = jsToString v := by
      unfold clientIdOfClaims
      rw [jsOr_falsy h1, jsOr_some_truthy hv ht]
    simp [authInfoOfClaims, hc]
  · intro v h1 h2 hv ht
    have hc : clientIdOfClaims (parseJwtClaims token) = jsToString v := by
      unfold clientIdOfClaims
      rw [jsOr_falsy h1, jsOr_falsy h2, jsOr_some_truthy hv ht]
    simp [authInfoOfClaims, hc]
  · intro v h1 h2 h3 hv ht
    have hc : clientIdOfClaims (parseJwtClaims token) = jsToString v := by
      unfold clientIdOfClaims
      rw [jsOr_falsy h1, jsOr_falsy h2, jsOr_falsy h3, jsOr_some_truthy hv ht]
    simp [authInfoOfClaims, hc]
  · intro s hs
    simp [authInfoOfClaims, scopesOfClaims, hs]
  · intro hns
    match hsc : jLookup (parseJwtClaims token) "scope" with
    | none => simp [authInfoOfClaims, scopesOfClaims, hsc]
    | some Json.null => simp [authInfoOfClaims, scopesOfClaims, hsc]
    | some (Json.bool b) => simp [authInfoOfClaims, scopesOfClaims, hsc]
    | some (Json.num n) => simp [authInfoOfClaims, scopesOfClaims, hsc]
    | some (Json.str s) => exact absurd hsc (hns s)
    | some (Json.arr xs) => simp [authInfoOfClaims, scopesOfClaims, hsc]
    | some (Json.obj kvs) => simp [authInfoOfClaims, scopesOfClaims, hsc]
  · intro e he
    simp [authInfoOfClaims, expOfClaims, he]
  · intro hne
    match hex : jLookup (parseJwtClaims token) "exp" with
    | none => simp [authInfoOfClaims, expOfClaims, hex]
    | some Json.null => simp [authInfoOfClaims, expOfClaims, hex]
    | some (Json.bool b) => simp [authInfoOfClaims, expOfClaims, hex]
    | some (Json.num n) => exact absurd hex (hne n)
    | some (Json.str s) => simp [authInfoOfClaims, expOfClaims, hex]
    | some (Json.arr xs) => simp [authInfoOfClaims, expOfClaims, hex]
    | some (Json.obj kvs) => simp [authInfoOfClaims, expOfClaims, hex]

/-- Token whose payload decodes to
`{"scope":"read write","client_id":"app1","exp":9999999999}`. -/
def tokRich : String :=
  "x.eyJzY29wZSI6InJlYWQgd3JpdGUiLCJjbGllbnRfaWQiOiJhcHAxIiwiZXhwIjo5OTk5OTk5OTk5fQ"

/-- Witness for C10 (amended): the rich token verifies to
`{clientId := "app1", scopes := ["read", "write"],
expiresAt := 9999999999}`. -/
theorem verify_identity_derivation_witness :
    (verifyBearerToken 60000 0 (.response 200 .null) [] tokRich).result
      = .ok ⟨"app1", ["read", "write"], some 9999999999⟩ := by
  obtain ⟨info, hok, hcid⟩ :=
    verify_identity_derivation 60000 0 .null [] tokRich rfl
  obtain ⟨-, hcid1, -, -, -, hscope, -, hexp, -⟩ := hcid
  have h1 : info.clientId = "app1" := by
    have := hcid1 (.str "app1") rfl rfl
    simpa [jsToString] using this
  have h2 : info.scopes = ["read", "write"] := by
    have := hscope "read write" rfl
    rw [this]
    rfl
  have h3 : info.expiresAt = some 9999999999 := hexp 9999999999 rfl
  obtain ⟨cid, sc, ex⟩ := info
  simp only at h1 h2 h3
  rw [hok, h1, h2, h3]

end HeadlesshostMcp
